import Mathlib

/-!
Verification of the zkinterface-bellman bridge (src/import.rs, src/zkif_backend.rs).

The development shallowly embeds the two source files:

* field elements of the prime field with modulus `p` are natural numbers,
  taken modulo `p` where the Rust code performs a modular reduction;
* byte buffers are lists of naturals (each byte below 256 in the source;
  the little-endian interpretation is literal);
* `bellman` variables (`r1cs_core::Variable`) are an inductive with an
  input index or an auxiliary index; `CS::one()` is input 0;
* the `HashMap<u64, Variable>` binding tables are association lists with
  most-recent-binding-first lookup, which has exactly the lookup/overwrite
  semantics of `HashMap::insert` / `HashMap::get`;
* fallible operations return `Except` / an error `Option`; the `unwrap`
  panics in the source are modelled as distinguished error values, since a
  panic aborts the enclosing synthesis without touching the data already
  written into the caller's constraint system.
-/

namespace ZkifBellman

/-! ## Field codec (src/import.rs, `le_to_fr`)

The source:
```
pub fn le_to_fr<F: PrimeField>(bytes_le: &[u8]) -> F {
    if bytes_le.len() == 0 { return F::zero(); }
    let mut bytes_le = Vec::from(bytes_le);
    let words = (F::size_in_bits() + 63) / 64;
    bytes_le.resize(8 * words as usize, 0);
    let repr = FromBytes::read(bytes_le.as_slice()).unwrap();
    F::from_repr(repr)
}
```
-/

/-- Little-endian interpretation of a byte buffer as a natural number. -/
def leToNat : List Nat → Nat
  | [] => 0
  | b :: bs => b + 256 * leToNat bs

/-- Little-endian encoding of a natural number on exactly `k` bytes
(the behaviour of `BigInteger::write_le` on a `k`-byte representation). -/
def natToLe : Nat → Nat → List Nat
  | 0, _ => []
  | k + 1, x => (x % 256) :: natToLe k (x / 256)

/-- `Vec::resize(n, 0)`: truncate to `n` elements or pad with zeros on the right. -/
def resize (l : List Nat) (n : Nat) : List Nat :=
  l.take n ++ List.replicate (n - l.length) 0

/-- `F::size_in_bits()`: the bit length of the field modulus `p`. -/
def sizeInBits (p : Nat) : Nat := Nat.log2 p + 1

/-- `let words = (F::size_in_bits() + 63) / 64`: 64-bit limb count of the
`BigInteger` representation backing the field. -/
def words (p : Nat) : Nat := (sizeInBits p + 63) / 64

/-- `le_to_fr`: decode little-endian bytes into a field element.  The empty
buffer is zero.  Otherwise the buffer is resized to the canonical
`8 * words` length and read as an unsigned little-endian integer; zexe's
`F::from_repr` converts the representative through Montgomery form, which
reduces it modulo `p` (it performs no range check in this revision), hence
the explicit `% p`. -/
def le_to_fr (p : Nat) (bytes_le : List Nat) : Nat :=
  if bytes_le = [] then 0
  else leToNat (resize bytes_le (8 * words p)) % p

/-- The encoding direction used by `call_gadget`
(`i.get_value().unwrap().into_repr().write_le(&mut values)`): the canonical
representative written little-endian on the full `8 * words` bytes. -/
def fr_to_le (p : Nat) (x : Nat) : List Nat := natToLe (8 * words p) x

/-! ### Codec lemmas -/

theorem leToNat_replicate_zero (n : Nat) : leToNat (List.replicate n 0) = 0 := by
  induction n with
  | zero => rfl
  | succ n ih => simp [List.replicate, leToNat, ih]

theorem natToLe_length (k x : Nat) : (natToLe k x).length = k := by
  induction k generalizing x with
  | zero => rfl
  | succ k ih => simp [natToLe, ih]

/-- Splitting a remainder modulo a product into a low byte and a high part. -/
theorem mod_mul_decomp (x b M : Nat) (hb : 0 < b) (hM : 0 < M) :
    x % (b * M) = x % b + b * (x / b % M) := by
  have h1 := Nat.div_add_mod x b
  have h2 := Nat.div_add_mod (x / b) M
  have hx : x = b * M * (x / b / M) + (b * (x / b % M) + x % b) := by
    calc x = b * (x / b) + x % b := h1.symm
    _ = b * (M * (x / b / M) + x / b % M) + x % b := by rw [h2]
    _ = b * M * (x / b / M) + (b * (x / b % M) + x % b) := by ring
  have hrb : x % b < b := Nat.mod_lt _ hb
  have hrM : x / b % M < M := Nat.mod_lt _ hM
  have hlt : b * (x / b % M) + x % b < b * M := by
    have : b * (x / b % M) + b ≤ b * M := by
      have := Nat.succ_le_of_lt hrM
      calc b * (x / b % M) + b = b * (x / b % M + 1) := by ring
      _ ≤ b * M := Nat.mul_le_mul_left _ this
    omega
  calc x % (b * M) = (b * M * (x / b / M) + (b * (x / b % M) + x % b)) % (b * M) := by
        rw [← hx]
  _ = (b * (x / b % M) + x % b) % (b * M) := by rw [Nat.mul_add_mod]
  _ = b * (x / b % M) + x % b := Nat.mod_eq_of_lt hlt
  _ = x % b + b * (x / b % M) := by ring

theorem leToNat_natToLe (k x : Nat) : leToNat (natToLe k x) = x % 256 ^ k := by
  induction k generalizing x with
  | zero => simp [natToLe, leToNat, Nat.mod_one]
  | succ k ih =>
      rw [natToLe, leToNat, ih, pow_succ, mul_comm (256 ^ k) 256,
        mod_mul_decomp x 256 (256 ^ k) (by norm_num) (Nat.pos_pow_of_pos k (by norm_num))]

theorem words_pos (p : Nat) : 0 < words p := by
  have : 64 ≤ sizeInBits p + 63 := by
    have : 1 ≤ sizeInBits p := Nat.le_add_left 1 _
    omega
  exact Nat.div_pos this (by norm_num)

/-- The canonical byte length always has room for the modulus. -/
theorem modulus_le_byte_capacity (p : Nat) : p ≤ 256 ^ (8 * words p) := by
  have h1 : p < 2 ^ sizeInBits p := Nat.lt_log2_self
  have h2 : sizeInBits p ≤ 64 * words p := by
    have := Nat.div_add_mod (sizeInBits p + 63) 64
    have hm : (sizeInBits p + 63) % 64 < 64 := Nat.mod_lt _ (by norm_num)
    unfold words
    omega
  calc p ≤ 2 ^ sizeInBits p := Nat.le_of_lt h1
  _ ≤ 2 ^ (64 * words p) := Nat.pow_le_pow_right (by norm_num) h2
  _ = 256 ^ (8 * words p) := by
      rw [show (256 : Nat) = 2 ^ 8 by norm_num, ← Nat.pow_mul]
      ring_nf

theorem resize_of_length_eq (l : List Nat) (n : Nat) (h : l.length = n) :
    resize l n = l := by
  subst h
  simp [resize]

theorem natToLe_ne_nil (k x : Nat) (hk : 0 < k) : natToLe k x ≠ [] := by
  cases k with
  | zero => omega
  | succ k => simp [natToLe]

/-! ## Data model (r1cs_core and zkinterface types) -/

/-- `r1cs_core::Variable`: an input (public) or auxiliary (private) index in
the constraint system. -/
inductive Variable where
  | input : Nat → Variable
  | aux : Nat → Variable
deriving DecidableEq, Repr

/-- One resolved term of a linear combination: a coefficient (field element)
attached to a constraint-system variable. -/
structure LinTerm where
  coeff : Nat
  var : Variable
deriving DecidableEq, Repr

/-- `r1cs_core::LinearCombination`, as the ordered list of terms accumulated
by repeated `lc = lc + (coeff, var)`. -/
abbrev LC := List LinTerm

/-- The bellman constraint system as observed by this code: a public-input
counter, an auxiliary counter and the enforced `A * B = C` constraints.
`numInputs` starts at 1 because the backend allocates the constant-one
variable at input index 0 before synthesis runs. -/
structure CS where
  numInputs : Nat := 1
  numAux : Nat := 0
  constraints : List (LC × LC × LC) := []
deriving DecidableEq, Repr

/-- `CS::one()`: the constant-one variable, input index 0. -/
def CS.one : Variable := Variable.input 0

/-- `zkinterface::reading::Term`: a wire variable id together with the raw
little-endian bytes of its coefficient. -/
structure Term where
  id : Nat
  value : List Nat
deriving DecidableEq, Repr

/-- `zkinterface::reading::Constraint`: three term lists asserting
`(sum a) * (sum b) = (sum c)`. -/
structure Constraint where
  a : List Term
  b : List Term
  c : List Term
deriving DecidableEq, Repr

/-- A declared wire variable of a message stream: id plus the (possibly
empty) little-endian value bytes. -/
structure WireVar where
  id : Nat
  value : List Nat
deriving DecidableEq, Repr

/-- Circuit-level flags of the last circuit message
(`circuit_msg.r1cs_generation()` / `circuit_msg.witness_generation()`). -/
structure CircuitHeader where
  r1cs_generation : Bool := false
  witness_generation : Bool := false
deriving DecidableEq, Repr

/-- `zkinterface::reading::Messages`, restricted to the accessors this code
uses: `connection_variables()`, `private_variables()` (both produce an
`Option`), `iter_constraints()` and `last_circuit()`. -/
structure Messages where
  connection_variables : Option (List WireVar) := none
  private_variables : Option (List WireVar) := none
  constraints : List Constraint := []
  last_circuit : Option CircuitHeader := none
deriving DecidableEq, Repr

/-- The errors the code can surface.  `unsatisfiable`, `assignmentMissing`
and `ioError` are `SynthesisError` values returned through `Result`; the
`missing...` / `unknownVariable` values model the `unwrap()` panics in the
source, which likewise abort the enclosing synthesis. -/
inductive SynthErr where
  /-- `SynthesisError::Unsatisfiable`, substituted for a failed external
  gadget call by `.or(Err(SynthesisError::Unsatisfiable))`. -/
  | unsatisfiable
  /-- `SynthesisError::AssignmentMissing`, when `last_circuit()` is `None`. -/
  | assignmentMissing
  /-- An `std::io::Error` lifted into the synthesis error, as produced by
  `File::open` on a missing key artifact. -/
  | ioError
  /-- Panic of `inputs[i].get_value().unwrap()` on an input without a value. -/
  | missingValue
  /-- Panic of `messages.connection_variables().unwrap()` on `None`. -/
  | missingConnectionVariables
  /-- Panic of `messages.private_variables().unwrap()` on `None`. -/
  | missingPrivateVariables
  /-- Panic of `vars.get(&term.id).unwrap()` on an id absent from the
  binding table. -/
  | unknownVariable
deriving DecidableEq, Repr

/-! ## Variable binding table (`HashMap<u64, Variable>`) -/

/-- The binding table, as an association list with the most recent binding
first.  Lookup takes the first hit, so `bt_insert` has exactly the
overwrite semantics of `HashMap::insert`. -/
abbrev BindTable := List (Nat × Variable)

/-- `id_to_var.insert(id, v)`. -/
def bt_insert (t : BindTable) (id : Nat) (v : Variable) : BindTable :=
  (id, v) :: t

/-- `id_to_var.get(&id)`. -/
def bt_get : BindTable → Nat → Option Variable
  | [], _ => none
  | (i, v) :: t, id => if i = id then some v else bt_get t id

/-- The ids present in the table, newest first. -/
def bt_keys (t : BindTable) : List Nat := t.map Prod.fst

/-! ## Linear-combination translator and constraint enforcer (src/import.rs) -/

/-- `terms_to_lc`: fold the term list into a linear combination, decoding
each coefficient with `le_to_fr` and resolving each id in the table.
`vars.get(&term.id).unwrap()` panics on an unbound id; the panic is the
`none` result (no further term is processed). -/
def terms_to_lc (p : Nat) (vars : BindTable) : List Term → Option LC
  | [] => some []
  | t :: ts =>
      match bt_get vars t.id with
      | none => none
      | some v =>
          match terms_to_lc p vars ts with
          | none => none
          | some l => some ({ coeff := le_to_fr p t.value, var := v } :: l)

/-- `enforce`: translate `a`, `b`, `c` and push the constraint
`A * B = C` onto the constraint system.  The closures are evaluated inside
`cs.enforce` before the constraint is recorded, so a panic while resolving
any of the three leaves the system exactly as it was; the pair returned is
(error if any, resulting system). -/
def enforce (p : Nat) (cs : CS) (vars : BindTable) (c : Constraint) :
    Option SynthErr × CS :=
  match terms_to_lc p vars c.a, terms_to_lc p vars c.b, terms_to_lc p vars c.c with
  | some la, some lb, some lcc =>
      (none, { cs with constraints := cs.constraints ++ [(la, lb, lcc)] })
  | _, _, _ => (some SynthErr.unknownVariable, cs)

/-- The enforcement loop `for (i, constraint) in messages.iter_constraints()`:
constraints are enforced in order and the first failure aborts, keeping
everything enforced so far. -/
def enforce_all (p : Nat) : CS → BindTable → List Constraint → Option SynthErr × CS
  | cs, _, [] => (none, cs)
  | cs, t, c :: rest =>
      match enforce p cs t c with
      | (some e, cs1) => (some e, cs1)
      | (none, cs1) => enforce_all p cs1 t rest

/-! ## Foreign gadget call (src/import.rs, `call_gadget`) -/

/-- `r1cs_std::fields::fp::FpGadget`: an allocated field variable carrying
an optional concrete value (`get_value()`) and its constraint-system
variable (`get_variable()`). -/
structure FpGadget where
  value : Option Nat
  var : Variable
deriving DecidableEq, Repr

/-- Line 60 of src/import.rs:
`let witness_generation = inputs.len() > 0 && inputs[0].get_value().is_some();`
Only the first input is consulted. -/
def witness_generation (inputs : List FpGadget) : Bool :=
  match inputs with
  | [] => false
  | g :: _ => g.value.isSome

/-- The serialization loop of witness mode: for each input,
`i.get_value().unwrap().into_repr().write_le(&mut values)` appends the
canonical little-endian bytes; `unwrap()` panics if some input after the
first carries no value. -/
def write_input_values (p : Nat) : List FpGadget → Except SynthErr (List Nat)
  | [] => Except.ok []
  | g :: gs =>
      match g.value with
      | none => Except.error SynthErr.missingValue
      | some x =>
          match write_input_values p gs with
          | Except.error e => Except.error e
          | Except.ok vs => Except.ok (fr_to_le p x ++ vs)

/-- `zkinterface::writing::VariablesOwned`. -/
structure VariablesOwned where
  variable_ids : List Nat
  values : Option (List Nat)
deriving DecidableEq, Repr

/-- `zkinterface::writing::CircuitOwned`: the call message sent to the
external gadget. -/
structure CircuitOwned where
  connections : VariablesOwned
  free_variable_id : Nat
  r1cs_generation : Bool
  field_maximum : Option (List Nat)
deriving DecidableEq, Repr

/-- Steps 1-2 of the call: mode detection, value serialization and the
construction of the call message.  `first_input_id = 1` and
`free_variable_id = first_input_id + inputs.len()`, so the reserved input
ids are `(first_input_id..free_variable_id) = [1, ..., k]`. -/
def build_call (p : Nat) (inputs : List FpGadget) : Except SynthErr CircuitOwned :=
  let valuesE : Except SynthErr (Option (List Nat)) :=
    if witness_generation inputs then
      match write_input_values p inputs with
      | Except.error e => Except.error e
      | Except.ok vs => Except.ok (some vs)
    else Except.ok none
  match valuesE with
  | Except.error e => Except.error e
  | Except.ok values =>
      Except.ok
        { connections := { variable_ids := List.range' 1 inputs.length, values := values },
          free_variable_id := 1 + inputs.length,
          r1cs_generation := true,
          field_maximum := none }

/-- The seeding loop
`for i in 0..inputs.len() { id_to_var.insert(ids[i], inputs[i].get_variable()); }`,
with `ids[i] = first_input_id + i`: the table, the next reserved id and the
remaining inputs are threaded through. -/
def seed_inputs : BindTable → Nat → List FpGadget → BindTable
  | t, _, [] => t
  | t, id, g :: gs => seed_inputs (bt_insert t id g.var) (id + 1) gs

/-- The fresh binding table of a gadget call: `id_to_var` starts empty,
receives `(0, CS::one())` and then one alias per reserved input id. -/
def seed_table (inputs : List FpGadget) : BindTable :=
  seed_inputs (bt_insert [] 0 CS.one) 1 inputs

/-- The output-allocation loop: each declared connection variable is
allocated through `FpGadget::alloc` (an auxiliary variable with value
`le_to_fr(var.value)`), bound to its wire id, and appended to the output
list in declaration order. -/
def alloc_outputs (p : Nat) : CS → BindTable → List WireVar → CS × BindTable × List FpGadget
  | cs, t, [] => (cs, t, [])
  | cs, t, w :: ws =>
      let num : FpGadget := { value := some (le_to_fr p w.value), var := Variable.aux cs.numAux }
      let res := alloc_outputs p { cs with numAux := cs.numAux + 1 } (bt_insert t w.id num.var) ws
      (res.1, res.2.1, num :: res.2.2)

/-- The private-variable loop: `cs.alloc` produces a fresh auxiliary
variable (its value closure `Ok(le_to_fr(var.value))` never fails) which is
bound to the declared wire id. -/
def alloc_privates (p : Nat) : CS → BindTable → List WireVar → CS × BindTable
  | cs, t, [] => (cs, t)
  | cs, t, w :: ws =>
      alloc_privates p { cs with numAux := cs.numAux + 1 }
        (bt_insert t w.id (Variable.aux cs.numAux)) ws

/-- The outcome of `call_gadget`.  `err`/`cs`/`outputs` reflect the Rust
return value and the caller's (mutably borrowed) constraint system at the
moment the call returns or panics.  `call` and `table` are observation
fields absent from the source's return type: the call message that was sent
(if the call got that far) and the sub-call's private binding table, kept so
the protocol steps can be stated about them. -/
structure GadgetResult where
  err : Option SynthErr
  cs : CS
  outputs : List FpGadget
  call : Option CircuitOwned
  table : BindTable
deriving DecidableEq, Repr

/-- `call_gadget` (src/import.rs lines 55-135).  The `call.write` wire
serialization and the matching parse of the response are the external
zkinterface codec, out of scope here; the external function is therefore
modelled directly as `CircuitOwned -> Result<Messages, String>`.  A failed
external call becomes `SynthesisError::Unsatisfiable`; the response's
connection variables are allocated as outputs (skipped entirely when the
accessor yields `None`), then `private_variables().unwrap()` panics on
`None`, then the returned constraints are enforced over the completed
table. -/
def call_gadget (p : Nat) (cs : CS) (inputs : List FpGadget)
    (exec_fn : CircuitOwned → Except String Messages) : GadgetResult :=
  match build_call p inputs with
  | Except.error e => { err := some e, cs := cs, outputs := [], call := none, table := [] }
  | Except.ok call =>
      match exec_fn call with
      | Except.error _ =>
          { err := some SynthErr.unsatisfiable, cs := cs, outputs := [],
            call := some call, table := [] }
      | Except.ok messages =>
          let t0 := seed_table inputs
          let res := alloc_outputs p cs t0 (messages.connection_variables.getD [])
          match messages.private_variables with
          | none =>
              { err := some SynthErr.missingPrivateVariables, cs := res.1,
                outputs := res.2.2, call := some call, table := res.2.1 }
          | some private_vars =>
              let res2 := alloc_privates p res.1 res.2.1 private_vars
              let res3 := enforce_all p res2.1 res2.2 messages.constraints
              { err := res3.1, cs := res3.2, outputs := res.2.2,
                call := some call, table := res2.2 }

/-! ## Circuit synthesis driver (src/zkif_backend.rs, `ZKIFCircuit::generate_constraints`) -/

/-- The public-input loop of the driver: each declared connection variable
is allocated with `cs.alloc_input` (a fresh input index; the value closure
`Ok(le_to_fr(var.value))` never fails) and bound to its wire id. -/
def alloc_inputs (p : Nat) : CS → BindTable → List WireVar → CS × BindTable
  | cs, t, [] => (cs, t)
  | cs, t, w :: ws =>
      alloc_inputs p { cs with numInputs := cs.numInputs + 1 }
        (bt_insert t w.id (Variable.input cs.numInputs)) ws

/-- The outcome of `generate_constraints`: error (if any), the constraint
system, and — as an observation field absent from the source's return
type — the driver's binding table. -/
structure DriverResult where
  err : Option SynthErr
  cs : CS
  table : BindTable
deriving DecidableEq, Repr

/-- `ZKIFCircuit::generate_constraints`: seed `id_to_var` with
`(0, CS::one())`, allocate every connection variable as a public input,
every private variable as an auxiliary, then enforce all constraints.  The
two `.unwrap()` calls on the accessors panic when the message stream lacks
the corresponding messages. -/
def generate_constraints (p : Nat) (messages : Messages) (cs : CS) : DriverResult :=
  let id_to_var := bt_insert [] 0 CS.one
  match messages.connection_variables with
  | none => { err := some SynthErr.missingConnectionVariables, cs := cs, table := id_to_var }
  | some public_vars =>
      let res := alloc_inputs p cs id_to_var public_vars
      match messages.private_variables with
      | none => { err := some SynthErr.missingPrivateVariables, cs := res.1, table := res.2 }
      | some private_vars =>
          let res2 := alloc_privates p res.1 res.2 private_vars
          let res3 := enforce_all p res2.1 res2.2 messages.constraints
          { err := res3.1, cs := res3.2, table := res2.2 }

/-! ## Artifact orchestrator (src/zkif_backend.rs, `zkif_backend`) -/

/-- Stand-in for the proving backend's `Parameters` (the key artifact):
opaque data generated from the synthesized constraint system. -/
structure Parameters where
  cs : CS
deriving DecidableEq, Repr

/-- Stand-in for the proof artifact: opaque data from the assigned system
and the key. -/
structure ProofArtifact where
  cs : CS
  params : Parameters
deriving DecidableEq, Repr

/-- The output directory: the two named artifact files, `key` and `proof`,
either absent or holding their artifact. -/
structure FS where
  key : Option Parameters := none
  proof : Option ProofArtifact := none
deriving DecidableEq, Repr

/-- `zkif_backend`: process one circuit.  `last_circuit()` missing is
`AssignmentMissing`.  If `r1cs_generation` is set, synthesize structurally
inside `generate_random_parameters` and persist the key; a synthesis
failure aborts before any write.  If `witness_generation` is set, open the
key artifact — an absent file is an io error — then synthesize with values
inside `create_random_proof` and persist the proof.  The proving backend's
own arithmetic (parameter generation, proof construction, `OsRng`) is the
external collaborator and is modelled as always succeeding once synthesis
succeeds; file writes succeed.  The returned pair is (error if any, the
directory contents when the call returns). -/
def zkif_backend (p : Nat) (messages : Messages) (fs : FS) : Option SynthErr × FS :=
  match messages.last_circuit with
  | none => (some SynthErr.assignmentMissing, fs)
  | some circuit_msg =>
      let afterKey : Option SynthErr × FS :=
        if circuit_msg.r1cs_generation then
          let r := generate_constraints p messages {}
          match r.err with
          | some e => (some e, fs)
          | none => (none, { fs with key := some { cs := r.cs } })
        else (none, fs)
      match afterKey with
      | (some e, fs1) => (some e, fs1)
      | (none, fs1) =>
          if circuit_msg.witness_generation then
            match fs1.key with
            | none => (some SynthErr.ioError, fs1)
            | some params =>
                let r := generate_constraints p messages {}
                match r.err with
                | some e => (some e, fs1)
                | none => (none, { fs1 with proof := some { cs := r.cs, params := params } })
          else (none, fs1)

/-! ## Claim C5: decode/encode round trip -/

/-- C5: for every valid field element `x` (a representative below the
modulus), decoding the canonical little-endian encoding of `x` yields `x`
again, and decoding the empty byte buffer yields the zero field element. -/
theorem le_to_fr_fr_to_le (p x : Nat) (hx : x < p) :
    le_to_fr p (fr_to_le p x) = x ∧ le_to_fr p [] = 0 := by
  constructor
  · have hk : 0 < 8 * words p := by
      have := words_pos p
      omega
    have hne : fr_to_le p x ≠ [] := natToLe_ne_nil _ x hk
    have hlen : (fr_to_le p x).length = 8 * words p := natToLe_length _ x
    rw [le_to_fr, if_neg hne, resize_of_length_eq _ _ hlen, fr_to_le,
      leToNat_natToLe]
    have hxlt : x < 256 ^ (8 * words p) :=
      Nat.lt_of_lt_of_le hx (modulus_le_byte_capacity p)
    rw [Nat.mod_eq_of_lt hxlt, Nat.mod_eq_of_lt hx]
  · rfl

/-- Witness for C5 at the concrete modulus 5 and element 3. -/
theorem le_to_fr_fr_to_le_witness :
    le_to_fr 5 (fr_to_le 5 3) = 3 ∧ le_to_fr 5 [] = 0 :=
  le_to_fr_fr_to_le 5 3 (by decide)

/-! ## Claim C4: out-of-range buffers -/

/-- Concrete limb count at the modulus 5 used by the witnesses
(`Nat.log2` recurses by well-founded recursion, so kernel reduction needs
this unfolding). -/
theorem words_five : words 5 = 1 := by
  simp [words, sizeInBits, Nat.log2]

/-- C4 counterexample: the byte buffer `[7]` has padded little-endian value
7, which is at least the modulus 5, yet `le_to_fr` does not fail — it is a
total function and silently produces the field element `7 mod 5 = 2`. -/
theorem le_to_fr_out_of_range_counterexample :
    5 ≤ leToNat (resize [7] (8 * words 5)) ∧ le_to_fr 5 [7] = 2 := by
  rw [le_to_fr, words_five]
  decide

/-- C4 amended: `le_to_fr` never fails; every buffer (empty or not, in
range or not) decodes to the padded little-endian value reduced modulo the
modulus, which is always a valid field element. -/
theorem le_to_fr_total_mod (p : Nat) (bytes_le : List Nat) (hp : 0 < p) :
    le_to_fr p bytes_le = leToNat (resize bytes_le (8 * words p)) % p ∧
    le_to_fr p bytes_le < p := by
  have hmain : le_to_fr p bytes_le = leToNat (resize bytes_le (8 * words p)) % p := by
    by_cases h : bytes_le = []
    · subst h
      rw [le_to_fr, if_pos rfl, resize]
      simp [leToNat_replicate_zero]
    · rw [le_to_fr, if_neg h]
  exact ⟨hmain, hmain ▸ Nat.mod_lt _ hp⟩

/-- Witness for the amended C4 at modulus 5 and buffer [7]. -/
theorem le_to_fr_total_mod_witness :
    le_to_fr 5 [7] = leToNat (resize [7] (8 * words 5)) % 5 ∧ le_to_fr 5 [7] < 5 :=
  le_to_fr_total_mod 5 [7] (by decide)

/-! ## Claim C3: enforce over bound and unbound ids -/

theorem terms_to_lc_some_of_bound (p : Nat) (vars : BindTable) (ts : List Term)
    (h : ∀ t ∈ ts, (bt_get vars t.id).isSome) :
    ∃ l, terms_to_lc p vars ts = some l ∧ l.length = ts.length := by
  induction ts with
  | nil => exact ⟨[], rfl, rfl⟩
  | cons t ts ih =>
      have ht : (bt_get vars t.id).isSome := h t (by simp)
      obtain ⟨v, hv⟩ := Option.isSome_iff_exists.mp ht
      obtain ⟨l, hl, hlen⟩ := ih (fun u hu => h u (by simp [hu]))
      refine ⟨{ coeff := le_to_fr p t.value, var := v } :: l, ?_, by simp [hlen]⟩
      simp [terms_to_lc, hv, hl]

theorem terms_to_lc_none_of_unbound (p : Nat) (vars : BindTable) (ts : List Term)
    (t : Term) (ht : t ∈ ts) (h : bt_get vars t.id = none) :
    terms_to_lc p vars ts = none := by
  induction ts with
  | nil => cases ht
  | cons u ts ih =>
      rcases List.mem_cons.mp ht with rfl | hmem
      · simp [terms_to_lc, h]
      · rw [terms_to_lc]
        cases hu : bt_get vars u.id with
        | none => rfl
        | some v => rw [ih hmem]

/-- C3: if every term of `a`, `b` and `c` references a bound id, `enforce`
succeeds and appends exactly one constraint, leaving the previously added
constraints as a prefix; if any term references an unbound id, `enforce`
fails with the unknown-variable error (the `unwrap` panic in
`terms_to_lc`) and returns the constraint system exactly as it was. -/
theorem enforce_spec (p : Nat) (cs : CS) (vars : BindTable) (c : Constraint) :
    ((∀ t ∈ c.a ++ c.b ++ c.c, (bt_get vars t.id).isSome) →
        (enforce p cs vars c).1 = none ∧
        (∃ abc, (enforce p cs vars c).2.constraints = cs.constraints ++ [abc]) ∧
        (enforce p cs vars c).2.constraints.length = cs.constraints.length + 1) ∧
    ((∃ t ∈ c.a ++ c.b ++ c.c, bt_get vars t.id = none) →
        enforce p cs vars c = (some SynthErr.unknownVariable, cs)) := by
  constructor
  · intro h
    obtain ⟨la, hla, _⟩ := terms_to_lc_some_of_bound p vars c.a
      (fun t ht => h t (by simp [ht]))
    obtain ⟨lb, hlb, _⟩ := terms_to_lc_some_of_bound p vars c.b
      (fun t ht => h t (by simp [ht]))
    obtain ⟨lcc, hlcc, _⟩ := terms_to_lc_some_of_bound p vars c.c
      (fun t ht => h t (by simp [ht]))
    rw [enforce, hla, hlb, hlcc]
    exact ⟨rfl, ⟨(la, lb, lcc), rfl⟩, by simp⟩
  · rintro ⟨t, ht, hnone⟩
    rcases List.mem_append.mp ht with hab | hc
    · rcases List.mem_append.mp hab with ha | hb
      · rw [enforce, terms_to_lc_none_of_unbound p vars c.a t ha hnone]
      · rw [enforce, terms_to_lc_none_of_unbound p vars c.b t hb hnone]
        cases terms_to_lc p vars c.a <;> rfl
    · rw [enforce, terms_to_lc_none_of_unbound p vars c.c t hc hnone]
      cases terms_to_lc p vars c.a <;> cases terms_to_lc p vars c.b <;> rfl

/-- Witness for C3: over the table binding only id 0, a constraint on id 0
is enforced (count 0 becomes 1) and a constraint mentioning id 5 fails with
the unknown-variable error, leaving the system untouched. -/
theorem enforce_spec_witness :
    ((enforce 5 {} (bt_insert [] 0 CS.one)
        { a := [{ id := 0, value := [] }], b := [], c := [] }).1 = none ∧
      (∃ abc, (enforce 5 {} (bt_insert [] 0 CS.one)
        { a := [{ id := 0, value := [] }], b := [], c := [] }).2.constraints =
          ({} : CS).constraints ++ [abc]) ∧
      (enforce 5 {} (bt_insert [] 0 CS.one)
        { a := [{ id := 0, value := [] }], b := [], c := [] }).2.constraints.length =
        ({} : CS).constraints.length + 1) ∧
    enforce 5 {} (bt_insert [] 0 CS.one)
        { a := [{ id := 5, value := [] }], b := [], c := [] } =
      (some SynthErr.unknownVariable, {}) := by
  constructor
  · exact (enforce_spec 5 {} (bt_insert [] 0 CS.one)
      { a := [{ id := 0, value := [] }], b := [], c := [] }).1 (by decide)
  · exact (enforce_spec 5 {} (bt_insert [] 0 CS.one)
      { a := [{ id := 5, value := [] }], b := [], c := [] }).2
      ⟨{ id := 5, value := [] }, by simp, by decide⟩

/-! ## Claim C7: id 0 is bound to constant-one first -/

theorem getLast?_bt_insert (t : BindTable) (id : Nat) (v : Variable) (h : t ≠ []) :
    (bt_insert t id v).getLast? = t.getLast? := by
  cases t with
  | nil => cases h rfl
  | cons a t => simp [bt_insert, List.getLast?_cons_cons]

theorem seed_inputs_table_inv (gs : List FpGadget) :
    ∀ (t : BindTable) (id : Nat), t ≠ [] →
      seed_inputs t id gs ≠ [] ∧ (seed_inputs t id gs).getLast? = t.getLast? := by
  induction gs with
  | nil => exact fun t id h => ⟨h, rfl⟩
  | cons g gs ih =>
      intro t id h
      have h1 : bt_insert t id g.var ≠ [] := by simp [bt_insert]
      obtain ⟨hne, hlast⟩ := ih (bt_insert t id g.var) (id + 1) h1
      exact ⟨hne, hlast.trans (getLast?_bt_insert t id g.var h)⟩

theorem alloc_outputs_table_inv (p : Nat) (ws : List WireVar) :
    ∀ (cs : CS) (t : BindTable), t ≠ [] →
      (alloc_outputs p cs t ws).2.1 ≠ [] ∧
      (alloc_outputs p cs t ws).2.1.getLast? = t.getLast? := by
  induction ws with
  | nil => exact fun cs t h => ⟨h, rfl⟩
  | cons w ws ih =>
      intro cs t h
      have h1 : bt_insert t w.id (Variable.aux cs.numAux) ≠ [] := by simp [bt_insert]
      obtain ⟨hne, hlast⟩ := ih { cs with numAux := cs.numAux + 1 }
        (bt_insert t w.id (Variable.aux cs.numAux)) h1
      exact ⟨hne, hlast.trans (getLast?_bt_insert t w.id _ h)⟩

theorem alloc_privates_table_inv (p : Nat) (ws : List WireVar) :
    ∀ (cs : CS) (t : BindTable), t ≠ [] →
      (alloc_privates p cs t ws).2 ≠ [] ∧
      (alloc_privates p cs t ws).2.getLast? = t.getLast? := by
  induction ws with
  | nil => exact fun cs t h => ⟨h, rfl⟩
  | cons w ws ih =>
      intro cs t h
      have h1 : bt_insert t w.id (Variable.aux cs.numAux) ≠ [] := by simp [bt_insert]
      obtain ⟨hne, hlast⟩ := ih { cs with numAux := cs.numAux + 1 }
        (bt_insert t w.id (Variable.aux cs.numAux)) h1
      exact ⟨hne, hlast.trans (getLast?_bt_insert t w.id _ h)⟩

theorem alloc_inputs_table_inv (p : Nat) (ws : List WireVar) :
    ∀ (cs : CS) (t : BindTable), t ≠ [] →
      (alloc_inputs p cs t ws).2 ≠ [] ∧
      (alloc_inputs p cs t ws).2.getLast? = t.getLast? := by
  induction ws with
  | nil => exact fun cs t h => ⟨h, rfl⟩
  | cons w ws ih =>
      intro cs t h
      have h1 : bt_insert t w.id (Variable.input cs.numInputs) ≠ [] := by simp [bt_insert]
      obtain ⟨hne, hlast⟩ := ih { cs with numInputs := cs.numInputs + 1 }
        (bt_insert t w.id (Variable.input cs.numInputs)) h1
      exact ⟨hne, hlast.trans (getLast?_bt_insert t w.id _ h)⟩

theorem seed_table_inv (inputs : List FpGadget) :
    seed_table inputs ≠ [] ∧ (seed_table inputs).getLast? = some (0, CS.one) := by
  have := seed_inputs_table_inv inputs (bt_insert [] 0 CS.one) 1 (by simp [bt_insert])
  exact ⟨this.1, this.2⟩

/-- C7: in every synthesis session the chronologically first binding of the
table is id 0 to the constant-one handle.  With the newest-first
association-list representation, the first binding performed is the last
element of the final table: for the top-level driver it is `(0, CS::one())`
whatever the message stream, and for a foreign-gadget call the private
table (when the call got far enough to create one — otherwise it is empty)
likewise ends in `(0, CS::one())`. -/
theorem table_binds_zero_first (p : Nat) (messages : Messages) (cs cs2 : CS)
    (inputs : List FpGadget) (exec_fn : CircuitOwned → Except String Messages) :
    (generate_constraints p messages cs).table.getLast? = some (0, CS.one) ∧
    ((call_gadget p cs2 inputs exec_fn).table = [] ∨
      (call_gadget p cs2 inputs exec_fn).table.getLast? = some (0, CS.one)) := by
  constructor
  · rw [generate_constraints]
    cases hconn : messages.connection_variables with
    | none => simp [bt_insert]
    | some public_vars =>
        have hbase : (bt_insert [] 0 CS.one : BindTable) ≠ [] := by simp [bt_insert]
        have h1 := alloc_inputs_table_inv p public_vars cs (bt_insert [] 0 CS.one) hbase
        have hbase0 : (bt_insert [] 0 CS.one : BindTable).getLast? = some (0, CS.one) := rfl
        cases hpriv : messages.private_variables with
        | none => simpa using h1.2.trans hbase0
        | some private_vars =>
            have h2 := alloc_privates_table_inv p private_vars
              (alloc_inputs p cs (bt_insert [] 0 CS.one) public_vars).1
              (alloc_inputs p cs (bt_insert [] 0 CS.one) public_vars).2 h1.1
            simpa using (h2.2.trans h1.2).trans hbase0
  · rw [call_gadget]
    cases hb : build_call p inputs with
    | error e => simp
    | ok call =>
        cases hexec : exec_fn call with
        | error s => simp [hexec]
        | ok msgs =>
            simp only [hexec]
            have hseed := seed_table_inv inputs
            have h1 := alloc_outputs_table_inv p (msgs.connection_variables.getD [])
              cs2 (seed_table inputs) hseed.1
            cases hpriv : msgs.private_variables with
            | none => simpa [hpriv] using Or.inr (h1.2.trans hseed.2)
            | some private_vars =>
                have h2 := alloc_privates_table_inv p private_vars
                  (alloc_outputs p cs2 (seed_table inputs) (msgs.connection_variables.getD [])).1
                  (alloc_outputs p cs2 (seed_table inputs) (msgs.connection_variables.getD [])).2.1
                  h1.1
                simpa [hpriv] using Or.inr ((h2.2.trans h1.2).trans hseed.2)

/-! ## Claim C6: reserved id range and output order -/

theorem build_call_ok_shape (p : Nat) (inputs : List FpGadget) (call : CircuitOwned)
    (hb : build_call p inputs = Except.ok call) :
    call.connections.variable_ids = List.range' 1 inputs.length ∧
    call.free_variable_id = 1 + inputs.length ∧
    call.r1cs_generation = true := by
  cases hw : witness_generation inputs with
  | false =>
      simp only [build_call, hw, Bool.false_eq_true, if_false, Except.ok.injEq] at hb
      rw [← hb]
      exact ⟨rfl, rfl, rfl⟩
  | true =>
      cases hv : write_input_values p inputs with
      | error e => simp [build_call, hw, hv] at hb
      | ok vs =>
          simp only [build_call, hw, if_true, hv, Except.ok.injEq] at hb
          rw [← hb]
          exact ⟨rfl, rfl, rfl⟩

theorem bt_keys_bt_insert (t : BindTable) (id : Nat) (v : Variable) :
    bt_keys (bt_insert t id v) = id :: bt_keys t := rfl

theorem bt_keys_seed_inputs (gs : List FpGadget) :
    ∀ (t : BindTable) (id : Nat),
      bt_keys (seed_inputs t id gs) = (List.range' id gs.length).reverse ++ bt_keys t := by
  induction gs with
  | nil => simp [seed_inputs]
  | cons g gs ih =>
      intro t id
      rw [seed_inputs, ih, bt_keys_bt_insert, List.length_cons, List.range'_succ]
      simp

/-- The gadget call's fresh table binds exactly id 0 (to constant-one) and
the reserved input ids, each exactly once. -/
theorem bt_keys_seed_table (inputs : List FpGadget) :
    bt_keys (seed_table inputs) = (List.range' 1 inputs.length).reverse ++ [0] ∧
    (bt_keys (seed_table inputs)).Nodup := by
  have hkeys : bt_keys (seed_table inputs) =
      (List.range' 1 inputs.length).reverse ++ [0] := by
    rw [seed_table, bt_keys_seed_inputs]
    rfl
  refine ⟨hkeys, ?_⟩
  rw [hkeys, List.nodup_append]
  refine ⟨List.nodup_reverse.mpr (List.nodup_range' 1 inputs.length 1 (by norm_num)),
    List.nodup_singleton 0, ?_⟩
  intro a ha hb
  rcases List.mem_singleton.mp hb with rfl
  have := (List.mem_range'_1.mp (List.mem_reverse.mp ha)).1
  omega

theorem alloc_outputs_spec (p : Nat) (ws : List WireVar) :
    ∀ (cs : CS) (t : BindTable),
      (alloc_outputs p cs t ws).2.2.map FpGadget.var =
        (List.range ws.length).map (fun i => Variable.aux (cs.numAux + i)) ∧
      (alloc_outputs p cs t ws).2.2.map FpGadget.value =
        ws.map (fun w => some (le_to_fr p w.value)) ∧
      (alloc_outputs p cs t ws).1.numAux = cs.numAux + ws.length := by
  induction ws with
  | nil => intro cs t; simp [alloc_outputs]
  | cons w ws ih =>
      intro cs t
      obtain ⟨h1, h2, h3⟩ := ih { cs with numAux := cs.numAux + 1 }
        (bt_insert t w.id (Variable.aux cs.numAux))
      dsimp only at h1 h3
      refine ⟨?_, ?_, ?_⟩
      · rw [alloc_outputs]
        simp only [List.map_cons, h1, List.length_cons]
        rw [List.range_succ_eq_map, List.map_cons, List.map_map]
        congr 1
        refine List.map_congr_left ?_
        intro a _
        exact congrArg Variable.aux (by omega)
      · rw [alloc_outputs]
        simp [h2]
      · rw [alloc_outputs]
        dsimp only
        rw [h3, List.length_cons]
        omega

/-- C6: a foreign-gadget call with `k` inputs reserves exactly the
contiguous ids `1..=k` in its call message, with `free_variable_id = k + 1`;
the fresh table binds exactly id 0 (the constant-one handle) and the
reserved ids, each once — it contains nothing from the caller, so the
range cannot conflict with any id the caller bound before the call — and
the returned output gadgets are allocated one per declared connection
variable, in exactly the declared order (the i-th output is the i-th
freshly allocated auxiliary variable carrying the i-th declared value). -/
theorem call_gadget_reserved_ids_and_output_order
    (p : Nat) (cs : CS) (inputs : List FpGadget)
    (exec_fn : CircuitOwned → Except String Messages) (msgs : Messages)
    (call : CircuitOwned) (private_vars : List WireVar)
    (hb : build_call p inputs = Except.ok call)
    (hexec : ∀ m, exec_fn m = Except.ok msgs)
    (hpriv : msgs.private_variables = some private_vars) :
    call.connections.variable_ids = List.range' 1 inputs.length ∧
    call.free_variable_id = 1 + inputs.length ∧
    bt_keys (seed_table inputs) = (List.range' 1 inputs.length).reverse ++ [0] ∧
    (bt_keys (seed_table inputs)).Nodup ∧
    (call_gadget p cs inputs exec_fn).outputs.map FpGadget.var =
      (List.range (msgs.connection_variables.getD []).length).map
        (fun i => Variable.aux (cs.numAux + i)) ∧
    (call_gadget p cs inputs exec_fn).outputs.map FpGadget.value =
      (msgs.connection_variables.getD []).map (fun w => some (le_to_fr p w.value)) := by
  obtain ⟨hids, hfree, -⟩ := build_call_ok_shape p inputs call hb
  obtain ⟨hkeys, hnodup⟩ := bt_keys_seed_table inputs
  obtain ⟨ho1, ho2, -⟩ :=
    alloc_outputs_spec p (msgs.connection_variables.getD []) cs (seed_table inputs)
  have hout : (call_gadget p cs inputs exec_fn).outputs =
      (alloc_outputs p cs (seed_table inputs) (msgs.connection_variables.getD [])).2.2 := by
    rw [call_gadget, hb]
    simp only [hexec call, hpriv]
  exact ⟨hids, hfree, hkeys, hnodup, hout ▸ ho1, hout ▸ ho2⟩

/-- Concrete inputs for the C6 witness: two structural input handles. -/
def c6Inputs : List FpGadget :=
  [{ value := none, var := Variable.aux 7 }, { value := none, var := Variable.aux 8 }]

/-- Concrete external response for the C6 witness: two declared outputs, no
private variables, no constraints. -/
def c6Msgs : Messages :=
  { connection_variables := some [{ id := 3, value := [2] }, { id := 4, value := [1] }],
    private_variables := some [], constraints := [], last_circuit := none }

/-- The call message `build_call` produces for `c6Inputs`. -/
def c6Call : CircuitOwned :=
  { connections := { variable_ids := [1, 2], values := none },
    free_variable_id := 3, r1cs_generation := true, field_maximum := none }

/-- Witness for C6: with two structural inputs and an external response
declaring two outputs, the call message reserves ids 1 and 2 with free id
3, the fresh table binds 2, 1, 0 exactly once each, and the two outputs
come back in declaration order. -/
theorem call_gadget_reserved_ids_witness :
    c6Call.connections.variable_ids = List.range' 1 c6Inputs.length ∧
    c6Call.free_variable_id = 1 + c6Inputs.length ∧
    bt_keys (seed_table c6Inputs) = (List.range' 1 c6Inputs.length).reverse ++ [0] ∧
    (bt_keys (seed_table c6Inputs)).Nodup ∧
    (call_gadget 5 {} c6Inputs (fun _ => Except.ok c6Msgs)).outputs.map FpGadget.var =
      (List.range (c6Msgs.connection_variables.getD []).length).map
        (fun i => Variable.aux (({} : CS).numAux + i)) ∧
    (call_gadget 5 {} c6Inputs (fun _ => Except.ok c6Msgs)).outputs.map FpGadget.value =
      (c6Msgs.connection_variables.getD []).map (fun w => some (le_to_fr 5 w.value)) :=
  call_gadget_reserved_ids_and_output_order 5 {} c6Inputs (fun _ => Except.ok c6Msgs)
    c6Msgs c6Call [] rfl (fun _ => rfl) rfl

/-! ## Claim C1: atomicity of a failed gadget call -/

/-- External response used by the C1 counterexample: one declared output,
but no private-variable message. -/
def c1Msgs : Messages :=
  { connection_variables := some [{ id := 1, value := [] }],
    private_variables := none, constraints := [], last_circuit := none }

/-- C1 counterexample: a failure at response parsing (step 4 — the
`private_variables().unwrap()` panic) does NOT leave the caller's
constraint system unchanged: the declared output has already been
allocated, so the auxiliary count went from 0 to 1 while the call failed. -/
theorem call_gadget_not_atomic_counterexample :
    (call_gadget 5 {} [] (fun _ => Except.ok c1Msgs)).err =
      some SynthErr.missingPrivateVariables ∧
    (call_gadget 5 {} [] (fun _ => Except.ok c1Msgs)).cs.numAux = 1 ∧
    ({} : CS).numAux = 0 :=
  ⟨rfl, rfl, rfl⟩

/-- C1 amended: only a failure at the external invocation itself (step 3,
including the value-serialization panic just before it) is atomic — the
caller's constraint system is returned untouched, no outputs exist and the
sub-call's binding table was never created.  (Failures at steps 4 and 8
are panics that strike after the gadget's outputs, private variables and
earlier constraints have already been merged into the caller's system, as
the counterexample shows.) -/
theorem call_gadget_external_failure_atomic
    (p : Nat) (cs : CS) (inputs : List FpGadget)
    (exec_fn : CircuitOwned → Except String Messages) (s : String)
    (hexec : ∀ m, exec_fn m = Except.error s) :
    (call_gadget p cs inputs exec_fn).err.isSome ∧
    (call_gadget p cs inputs exec_fn).cs = cs ∧
    (call_gadget p cs inputs exec_fn).outputs = [] ∧
    (call_gadget p cs inputs exec_fn).table = [] := by
  rw [call_gadget]
  cases hb : build_call p inputs with
  | error e => exact ⟨rfl, rfl, rfl, rfl⟩
  | ok call => simp [hexec call]

/-- Witness for the amended C1: an external function that always fails
leaves the empty constraint system untouched. -/
theorem call_gadget_external_failure_atomic_witness :
    (call_gadget 5 {} [] (fun _ => Except.error "gadget failed")).err.isSome ∧
    (call_gadget 5 {} [] (fun _ => Except.error "gadget failed")).cs = {} ∧
    (call_gadget 5 {} [] (fun _ => Except.error "gadget failed")).outputs = [] ∧
    (call_gadget 5 {} [] (fun _ => Except.error "gadget failed")).table = [] :=
  call_gadget_external_failure_atomic 5 {} [] _ "gadget failed" (fun _ => rfl)

/-! ## Claim C2: mode detection -/

/-- Mixed input list for the C2 counterexample: the first handle carries no
value, the second does. -/
def c2MixedInputs : List FpGadget :=
  [{ value := none, var := Variable.aux 0 }, { value := some 1, var := Variable.aux 1 }]

/-- Benign external response for the C2 counterexample. -/
def c2Msgs : Messages :=
  { connection_variables := some [], private_variables := some [],
    constraints := [], last_circuit := none }

/-- C2 counterexample: a mixed input list (first value absent, second
present) is NOT rejected with any error — the call runs to completion in
structural mode, sending a call message without values. -/
theorem mixed_inputs_not_rejected_counterexample :
    (call_gadget 5 {} c2MixedInputs (fun _ => Except.ok c2Msgs)).err = none ∧
    (call_gadget 5 {} c2MixedInputs (fun _ => Except.ok c2Msgs)).call =
      some { connections := { variable_ids := [1, 2], values := none },
             free_variable_id := 3, r1cs_generation := true, field_maximum := none } :=
  ⟨rfl, rfl⟩

theorem write_input_values_error_of_some_none (p : Nat) (gs : List FpGadget)
    (hex : ∃ g ∈ gs, g.value = none) :
    write_input_values p gs = Except.error SynthErr.missingValue := by
  induction gs with
  | nil =>
      rcases hex with ⟨g, hg, -⟩
      cases hg
  | cons g gs ih =>
      rcases hex with ⟨u, hu, hnone⟩
      rcases List.mem_cons.mp hu with rfl | hmem
      · rw [write_input_values, hnone]
      · cases hg : g.value with
        | none => rw [write_input_values, hg]
        | some x => rw [write_input_values, hg, ih ⟨u, hmem, hnone⟩]

theorem write_input_values_ok_of_all_some (p : Nat) (gs : List FpGadget)
    (h : ∀ g ∈ gs, g.value.isSome) :
    ∃ vs, write_input_values p gs = Except.ok vs := by
  induction gs with
  | nil => exact ⟨[], rfl⟩
  | cons g gs ih =>
      obtain ⟨x, hx⟩ := Option.isSome_iff_exists.mp (h g (by simp))
      obtain ⟨vs, hvs⟩ := ih (fun u hu => h u (by simp [hu]))
      exact ⟨fr_to_le p x ++ vs, by rw [write_input_values, hx, hvs]⟩

/-- C2 amended: the mode of a gadget call is decided solely by the FIRST
input handle (`inputs.len() > 0 && inputs[0].get_value().is_some()`).  If
it carries no value (or the list is empty) the call runs structurally —
values omitted — even when later handles do carry values; if it carries a
value and every handle does, the serialized values go out; if it carries a
value but some later handle does not, the call dies on the
`get_value().unwrap()` panic, not with any protocol-violation error. -/
theorem build_call_mode_spec (p : Nat) (inputs : List FpGadget) :
    (witness_generation inputs = false →
      build_call p inputs = Except.ok
        { connections := { variable_ids := List.range' 1 inputs.length, values := none },
          free_variable_id := 1 + inputs.length,
          r1cs_generation := true, field_maximum := none }) ∧
    (witness_generation inputs = true → (∀ g ∈ inputs, g.value.isSome) →
      ∃ vs, build_call p inputs = Except.ok
        { connections := { variable_ids := List.range' 1 inputs.length, values := some vs },
          free_variable_id := 1 + inputs.length,
          r1cs_generation := true, field_maximum := none }) ∧
    (witness_generation inputs = true → (∃ g ∈ inputs, g.value = none) →
      build_call p inputs = Except.error SynthErr.missingValue) := by
  refine ⟨fun hw => ?_, fun hw hall => ?_, fun hw hex => ?_⟩
  · simp [build_call, hw]
  · obtain ⟨vs, hvs⟩ := write_input_values_ok_of_all_some p inputs hall
    exact ⟨vs, by simp [build_call, hw, hvs]⟩
  · simp [build_call, hw, write_input_values_error_of_some_none p inputs hex]

/-- Input list whose first handle has a value but whose second does not,
for the C2 witness. -/
def c2FirstSomeInputs : List FpGadget :=
  [{ value := some 1, var := Variable.aux 0 }, { value := none, var := Variable.aux 1 }]

/-- Uniformly valued input list for the C2 witness. -/
def c2AllSomeInputs : List FpGadget := [{ value := some 1, var := Variable.aux 0 }]

/-- Witness for the amended C2: a first-absent mixed list goes structural,
a first-present mixed list panics on the missing value, and a uniformly
valued list goes out in witness mode. -/
theorem build_call_mode_spec_witness :
    build_call 5 c2MixedInputs = Except.ok
      { connections := { variable_ids := List.range' 1 c2MixedInputs.length, values := none },
        free_variable_id := 1 + c2MixedInputs.length,
        r1cs_generation := true, field_maximum := none } ∧
    build_call 5 c2FirstSomeInputs = Except.error SynthErr.missingValue ∧
    ∃ vs, build_call 5 c2AllSomeInputs = Except.ok
      { connections := { variable_ids := List.range' 1 c2AllSomeInputs.length,
                         values := some vs },
        free_variable_id := 1 + c2AllSomeInputs.length,
        r1cs_generation := true, field_maximum := none } :=
  ⟨(build_call_mode_spec 5 c2MixedInputs).1 rfl,
    (build_call_mode_spec 5 c2FirstSomeInputs).2.2 rfl
      ⟨{ value := none, var := Variable.aux 1 }, by simp [c2FirstSomeInputs], rfl⟩,
    (build_call_mode_spec 5 c2AllSomeInputs).2.1 rfl
      (by simp [c2AllSomeInputs])⟩

/-! ## Claim C8: rebinding an id -/

/-- External response for the C8 counterexample: it declares a connection
variable with the reserved id 0. -/
def c8Msgs : Messages :=
  { connection_variables := some [{ id := 0, value := [] }],
    private_variables := some [], constraints := [], last_circuit := none }

/-- C8 counterexample: binding an id that is already bound does NOT fail —
when the gadget response declares a variable with id 0, the call succeeds
with no error and the table afterwards resolves id 0 to the freshly
allocated variable, not to the constant-one handle. -/
theorem rebind_id_zero_no_error_counterexample :
    (call_gadget 5 {} [] (fun _ => Except.ok c8Msgs)).err = none ∧
    bt_get (call_gadget 5 {} [] (fun _ => Except.ok c8Msgs)).table 0 =
      some (Variable.aux 0) ∧
    Variable.aux 0 ≠ CS.one :=
  ⟨rfl, rfl, by decide⟩

/-- C8 amended: binding an id that is already bound in the table does not
fail with any error — `HashMap::insert` silently overwrites, so a
subsequent resolve of that id returns the new handle (all other ids are
unaffected).  There is no duplicate-binding check anywhere in the code. -/
theorem bt_insert_overwrites (t : BindTable) (id : Nat) (v : Variable)
    (hbound : (bt_get t id).isSome) :
    bt_get (bt_insert t id v) id = some v ∧
    ∀ id2, id2 ≠ id → bt_get (bt_insert t id v) id2 = bt_get t id2 := by
  refine ⟨by simp [bt_insert, bt_get], fun id2 hne => ?_⟩
  have hne2 : ¬(id = id2) := fun h => hne h.symm
  simp [bt_insert, bt_get, hne2]

/-- Witness for the amended C8: rebinding id 0 over the table that maps it
to the constant-one handle succeeds and replaces the binding. -/
theorem bt_insert_overwrites_witness :
    bt_get (bt_insert (bt_insert [] 0 CS.one) 0 (Variable.aux 0)) 0 =
      some (Variable.aux 0) ∧
    ∀ id2, id2 ≠ 0 →
      bt_get (bt_insert (bt_insert [] 0 CS.one) 0 (Variable.aux 0)) id2 =
        bt_get (bt_insert [] 0 CS.one) id2 :=
  bt_insert_overwrites (bt_insert [] 0 CS.one) 0 (Variable.aux 0) rfl

/-! ## Claim C9: proof generation without a key artifact -/

/-- C9: a witness run that must produce a proof (witness flag set,
structural flag not set in this invocation) over a directory holding no key
artifact fails with the io error from opening the key file, and the
directory is returned exactly as it was — in particular no proof artifact
is written. -/
theorem zkif_backend_missing_key (p : Nat) (messages : Messages) (fs : FS)
    (c : CircuitHeader)
    (hlast : messages.last_circuit = some c)
    (hr : c.r1cs_generation = false)
    (hw : c.witness_generation = true)
    (hkey : fs.key = none) :
    zkif_backend p messages fs = (some SynthErr.ioError, fs) := by
  rw [zkif_backend, hlast]
  simp [hr, hw, hkey]

/-- Witness for C9: a witness-only circuit over the empty directory. -/
theorem zkif_backend_missing_key_witness :
    zkif_backend 5
      { last_circuit := some { r1cs_generation := false, witness_generation := true } }
      {} = (some SynthErr.ioError, {}) :=
  zkif_backend_missing_key 5
    { last_circuit := some { r1cs_generation := false, witness_generation := true } }
    {} { r1cs_generation := false, witness_generation := true } rfl rfl rfl rfl

/-! ## Claim C10: empty input list runs structurally -/

/-- C10: a gadget call with an empty input list always runs in structural
mode — `witness_generation` is false and the call message it sends (also
when the external call then fails) carries no input values, reserving the
empty id range with `free_variable_id = 1`. -/
theorem call_gadget_call_field (p : Nat) (cs : CS) (inputs : List FpGadget)
    (exec_fn : CircuitOwned → Except String Messages) (call : CircuitOwned)
    (hb : build_call p inputs = Except.ok call) :
    (call_gadget p cs inputs exec_fn).call = some call := by
  rw [call_gadget, hb]
  cases hexec : exec_fn call with
  | error s => simp [hexec]
  | ok msgs =>
      simp only [hexec]
      cases hpriv : msgs.private_variables with
      | none => simp [hpriv]
      | some private_vars => simp [hpriv]

theorem call_gadget_empty_inputs_structural (p : Nat) (cs : CS)
    (exec_fn : CircuitOwned → Except String Messages) :
    witness_generation [] = false ∧
    (call_gadget p cs [] exec_fn).call =
      some { connections := { variable_ids := [], values := none },
             free_variable_id := 1, r1cs_generation := true, field_maximum := none } :=
  ⟨rfl, call_gadget_call_field p cs [] exec_fn _ rfl⟩
